import Mathlib

/-!
Verification of the rogue DHCP responder (`rogue_dhcp_server.py`).

The source is a single-threaded packet-classify-and-respond loop.  We embed it
shallowly: the responder object becomes a Lean structure, each handler method
becomes a pure function from the responder state and an inbound packet to the
new state together with the (at most one) transmitted frame, and the dispatch
loop over a packet sequence becomes a fold.  IPv4 addresses travel as their
dotted-quad strings exactly as in the source (which stores `str(ip)` in the
pool); machine integers are `Nat`.
-/

/-! ### Model of `socket.inet_aton` and `is_valid_ip` -/

/-- Value of one character as a digit in the given base (decimal, hex letters
for base 16), as accepted by the C numeric parser behind `inet_aton`. -/
def cDigitVal (base : Nat) (c : Char) : Option Nat :=
  let v : Option Nat :=
    if ('0' ≤ c ∧ c ≤ '9') then some (c.toNat - 48)
    else if ('a' ≤ c ∧ c ≤ 'f') then some (c.toNat - 87)
    else if ('A' ≤ c ∧ c ≤ 'F') then some (c.toNat - 55)
    else none
  match v with
  | some d => if d < base then some d else none
  | none => none

/-- Accumulate a list of digit characters in the given base; every character
must be a digit of the base.  An empty list yields 0, matching the C parser,
which treats a bare "0x" or "0" prefix as the number 0. -/
def cDigitsVal (base : Nat) (cs : List Char) : Option Nat :=
  cs.foldl
    (fun acc c =>
      match acc, cDigitVal base c with
      | some a, some d => some (a * base + d)
      | _, _ => none)
    (some 0)

/-- Split a character list at every occurrence of the separator, keeping
empty groups: the behaviour of a single-character string split. -/
def splitChar (sep : Char) (cs : List Char) : List (List Char) :=
  match cs with
  | [] => [[]]
  | c :: rest =>
    if c = sep then [] :: splitChar sep rest
    else
      match splitChar sep rest with
      | [] => [[c]]
      | g :: gs => (c :: g) :: gs

/-- One dot-separated component of an `inet_aton` address: decimal, or
hexadecimal after a `0x`/`0X` prefix, or octal after a `0` prefix.  The empty
component is rejected (glibc requires a digit to start each component). -/
def cIPPart (s : List Char) : Option Nat :=
  match s with
  | [] => none
  | '0' :: 'x' :: rest => cDigitsVal 16 rest
  | '0' :: 'X' :: rest => cDigitsVal 16 rest
  | '0' :: rest => cDigitsVal 8 rest
  | cs => cDigitsVal 10 cs

/-- Model of `socket.inet_aton`: between one and four dot-separated numeric
components; all but the last must fit in one byte, and the last must fit in
the remaining bytes of the 32-bit address.  Returns the parsed address. -/
def inet_aton (s : String) : Option Nat :=
  match (splitChar '.' s.data).mapM cIPPart with
  | none => none
  | some vals =>
    match vals.reverse with
    | [] => none
    | last :: revFront =>
      let front := revFront.reverse
      if front.length ≤ 3 ∧ front.all (fun v => v < 256) ∧
          last < 2 ^ (8 * (4 - front.length)) then
        some (front.foldl (fun a v => a * 256 + v) 0 * 2 ^ (8 * (4 - front.length)) + last)
      else none

/-- `is_valid_ip` from the source: `socket.inet_aton` succeeds. -/
def is_valid_ip (ip : String) : Bool :=
  (inet_aton ip).isSome

/-! ### Dotted-quad printing, `str(IPv4Address)` -/

/-- `str` of an IPv4 address value: four decimal octets joined by dots. -/
def ipToString (n : Nat) : String :=
  toString (n / 16777216 % 256) ++ "." ++ toString (n / 65536 % 256) ++ "." ++
    toString (n / 256 % 256) ++ "." ++ toString (n % 256)

/-! ### Model of `ipaddress.ip_network(ip_pool, strict=False)` -/

/-- A parsed IPv4 CIDR block: the address written before the slash and the
prefix length.  `strict=False` in the source means host bits are masked off
rather than rejected, which `networkAddress` below performs. -/
structure IPNetwork where
  base : Nat
  prefixLen : Nat
  deriving DecidableEq, Repr

/-- Number of addresses in the block. -/
def IPNetwork.numAddresses (n : IPNetwork) : Nat :=
  2 ^ (32 - n.prefixLen)

/-- The network address: the base with its host bits cleared. -/
def IPNetwork.networkAddress (n : IPNetwork) : Nat :=
  n.base - n.base % n.numAddresses

/-- The broadcast address: last address of the block. -/
def IPNetwork.broadcastAddress (n : IPNetwork) : Nat :=
  n.networkAddress + n.numAddresses - 1

/-- Model of `IPv4Network.hosts()`: for prefix lengths up to 30 every address
strictly between the network and broadcast addresses; the CPython
implementation special-cases a /31 to yield both addresses of the block and a
/32 to yield the single address. -/
def IPNetwork.hosts (n : IPNetwork) : List Nat :=
  if n.prefixLen = 32 then [n.networkAddress]
  else if n.prefixLen = 31 then [n.networkAddress, n.broadcastAddress]
  else (List.range (n.numAddresses - 2)).map (fun i => n.networkAddress + 1 + i)

/-! ### Frames -/

/-- An inbound captured frame, restricted to the fields the handlers read:
the Ethernet source (the client MAC string), the BOOTP transaction id, whether
a DHCP layer is present, and the value of the first DHCP option
(`packet[DHCP].options[0][1]`, the message type). -/
structure InPacket where
  src_mac : String
  xid : Nat
  hasDHCP : Bool
  msgType : Nat
  deriving DecidableEq, Repr

/-- The link-layer source of a transmitted frame is `get_if_hwaddr(interface)`,
an OS lookup; we model its result as an opaque value tagged by the interface
name. -/
inductive HWAddr where
  | ifaceHW (interface : String)
  deriving DecidableEq, Repr

/-- One DHCP option as placed in the options list of a reply. -/
inductive DhcpOption where
  | messageType (v : String)
  | server_id (v : String)
  | subnet_mask (v : String)
  | router (v : String)
  | name_server (v : String)
  | lease_time (v : Nat)
  | endOpt
  deriving DecidableEq, Repr

/-- `mac2str` from scapy: each colon-separated component of the MAC string
parsed as a hexadecimal byte, yielding the raw byte sequence. -/
def mac2str (mac : String) : List Nat :=
  (splitChar ':' mac.data).map
    (fun p => p.foldl (fun a c => a * 16 + ((cDigitVal 16 c).getD 0)) 0)

/-- A transmitted Offer/Ack frame:
Ether / IP / UDP / BOOTP / DHCP fields in source order. -/
structure OutFrame where
  eth_src : HWAddr
  eth_dst : String
  ip_src : String
  ip_dst : String
  udp_sport : Nat
  udp_dport : Nat
  bootp_op : Nat
  bootp_xid : Nat
  bootp_yiaddr : String
  bootp_siaddr : String
  bootp_chaddr : List Nat
  dhcp_options : List DhcpOption
  deriving DecidableEq, Repr

/-! ### Python dict operations for `allocated_ips` -/

/-- Lookup in a Python dict modelled as an association list. -/
def dictLookup (d : List (String × String)) (k : String) : Option String :=
  match d with
  | [] => none
  | (k', v) :: t => if k' = k then some v else dictLookup t k

/-- `d[k] = v` on a Python dict: overwrite in place if the key exists,
otherwise append. -/
def dictInsert (d : List (String × String)) (k v : String) :
    List (String × String) :=
  match d with
  | [] => [(k, v)]
  | (k', v') :: t => if k' = k then (k', v) :: t else (k', v') :: dictInsert t k v

/-! ### The responder -/

/-- The `RogueDHCPServer` object state. -/
structure RogueDHCPServer where
  interface : String
  ip_pool : IPNetwork
  subnet_mask : String
  gateway : String
  dns_servers : List String
  lease_time : Nat
  allocated_ips : List (String × String)
  server_ip : String
  available_ips : List String
  deriving DecidableEq, Repr

/-- `RogueDHCPServer.__init__`: stores the configuration, uses the gateway as
the server IP, starts with an empty allocation table, and derives the pool as
the `str` of every address in `ip_network(ip_pool, strict=False).hosts()`.
The CIDR argument arrives already parsed into an `IPNetwork`. -/
def RogueDHCPServer.init (interface : String) (ip_pool : IPNetwork)
    (subnet_mask gateway : String) (dns_servers : List String)
    (lease_time : Nat) : RogueDHCPServer :=
  { interface := interface
    ip_pool := ip_pool
    subnet_mask := subnet_mask
    gateway := gateway
    dns_servers := dns_servers
    lease_time := lease_time
    allocated_ips := []
    server_ip := gateway
    available_ips := ip_pool.hosts.map ipToString }

/-- `handle_dhcp_discover`: on a frame with a DHCP layer whose first option
value is 1, pop the first available address (silently doing nothing when the
pool is empty), record it for the client MAC, and transmit a broadcast Offer.
Returns the updated state and the transmitted frame, if any. -/
def handle_dhcp_discover (s : RogueDHCPServer) (packet : InPacket) :
    RogueDHCPServer × Option OutFrame :=
  if packet.hasDHCP ∧ packet.msgType = 1 then
    let client_mac := packet.src_mac
    let transaction_id := packet.xid
    match s.available_ips with
    | [] => (s, none)
    | offered_ip :: restPool =>
      let s' : RogueDHCPServer :=
        { s with
          available_ips := restPool
          allocated_ips := dictInsert s.allocated_ips client_mac offered_ip }
      let valid_dns := s.dns_servers.filter (fun ip => is_valid_ip ip)
      let dhcp_offer : OutFrame :=
        { eth_src := HWAddr.ifaceHW s.interface
          eth_dst := "ff:ff:ff:ff:ff:ff"
          ip_src := s.server_ip
          ip_dst := "255.255.255.255"
          udp_sport := 67
          udp_dport := 68
          bootp_op := 2
          bootp_xid := transaction_id
          bootp_yiaddr := offered_ip
          bootp_siaddr := s.server_ip
          bootp_chaddr := mac2str client_mac
          dhcp_options :=
            [DhcpOption.messageType ("offer"),
             DhcpOption.server_id s.server_ip,
             DhcpOption.subnet_mask s.subnet_mask,
             DhcpOption.router s.gateway,
             DhcpOption.name_server (valid_dns.headD s.gateway),
             DhcpOption.lease_time s.lease_time,
             DhcpOption.endOpt] }
      (s', some dhcp_offer)
  else (s, none)

/-- `handle_dhcp_request`: on a frame with a DHCP layer whose first option
value is 3, look the client MAC up in the allocation table; if absent do
nothing, otherwise transmit a broadcast Ack for the recorded address.  The
method body assigns to neither `available_ips` nor `allocated_ips`, so the
state is returned unchanged. -/
def handle_dhcp_request (s : RogueDHCPServer) (packet : InPacket) :
    RogueDHCPServer × Option OutFrame :=
  if packet.hasDHCP ∧ packet.msgType = 3 then
    let client_mac := packet.src_mac
    let transaction_id := packet.xid
    match dictLookup s.allocated_ips client_mac with
    | none => (s, none)
    | some assigned_ip =>
      let valid_dns := s.dns_servers.filter (fun ip => is_valid_ip ip)
      let dhcp_ack : OutFrame :=
        { eth_src := HWAddr.ifaceHW s.interface
          eth_dst := "ff:ff:ff:ff:ff:ff"
          ip_src := s.server_ip
          ip_dst := "255.255.255.255"
          udp_sport := 67
          udp_dport := 68
          bootp_op := 2
          bootp_xid := transaction_id
          bootp_yiaddr := assigned_ip
          bootp_siaddr := s.server_ip
          bootp_chaddr := mac2str client_mac
          dhcp_options :=
            [DhcpOption.messageType ("ack"),
             DhcpOption.server_id s.server_ip,
             DhcpOption.subnet_mask s.subnet_mask,
             DhcpOption.router s.gateway,
             DhcpOption.name_server (valid_dns.headD s.gateway),
             DhcpOption.lease_time s.lease_time,
             DhcpOption.endOpt] }
      (s, some dhcp_ack)
  else (s, none)

/-- `process_packet`: the dispatch body run on every captured frame with a
DHCP layer; message type 1 goes to the Discover handler, 3 to the Request
handler, everything else is observed but ignored. -/
def process_packet (s : RogueDHCPServer) (packet : InPacket) :
    RogueDHCPServer × Option OutFrame :=
  if packet.hasDHCP then
    if packet.msgType = 1 then handle_dhcp_discover s packet
    else if packet.msgType = 3 then handle_dhcp_request s packet
    else (s, none)
  else (s, none)

/-- The capture loop restricted to a finite packet sequence: thread the state
through `process_packet` and collect the transmitted frames in order. -/
def runPackets (s : RogueDHCPServer) (ps : List InPacket) :
    RogueDHCPServer × List OutFrame :=
  match ps with
  | [] => (s, [])
  | p :: rest =>
    let step := process_packet s p
    let tail := runPackets step.1 rest
    (tail.1, step.2.toList ++ tail.2)

/-! ### Characterizations of the handlers -/

/-- The common shape of every transmitted reply (Offer and Ack differ only in
the message-type string and in which address fills `yiaddr`). -/
def replyFrame (s : RogueDHCPServer) (mtype mac : String) (xid : Nat)
    (yiaddr : String) : OutFrame :=
  { eth_src := HWAddr.ifaceHW s.interface
    eth_dst := "ff:ff:ff:ff:ff:ff"
    ip_src := s.server_ip
    ip_dst := "255.255.255.255"
    udp_sport := 67
    udp_dport := 68
    bootp_op := 2
    bootp_xid := xid
    bootp_yiaddr := yiaddr
    bootp_siaddr := s.server_ip
    bootp_chaddr := mac2str mac
    dhcp_options :=
      [DhcpOption.messageType mtype,
       DhcpOption.server_id s.server_ip,
       DhcpOption.subnet_mask s.subnet_mask,
       DhcpOption.router s.gateway,
       DhcpOption.name_server
         ((s.dns_servers.filter (fun ip => is_valid_ip ip)).headD s.gateway),
       DhcpOption.lease_time s.lease_time,
       DhcpOption.endOpt] }

theorem process_packet_discover (s : RogueDHCPServer) (p : InPacket)
    (hd : p.hasDHCP = true) (hm : p.msgType = 1) :
    process_packet s p = handle_dhcp_discover s p := by
  simp [process_packet, hd, hm]

theorem process_packet_request (s : RogueDHCPServer) (p : InPacket)
    (hd : p.hasDHCP = true) (hm : p.msgType = 3) :
    process_packet s p = handle_dhcp_request s p := by
  simp [process_packet, hd, hm]

theorem handle_dhcp_discover_nil (s : RogueDHCPServer) (p : InPacket)
    (hpool : s.available_ips = []) :
    handle_dhcp_discover s p = (s, none) := by
  by_cases hc : (p.hasDHCP : Prop) ∧ p.msgType = 1 <;>
    simp [handle_dhcp_discover, hpool, hc]

theorem handle_dhcp_discover_cons (s : RogueDHCPServer) (p : InPacket)
    (hd : p.hasDHCP = true) (hm : p.msgType = 1)
    (ip : String) (rest : List String) (hpool : s.available_ips = ip :: rest) :
    handle_dhcp_discover s p =
      ({ s with available_ips := rest,
                allocated_ips := dictInsert s.allocated_ips p.src_mac ip },
       some (replyFrame s ("offer") p.src_mac p.xid ip)) := by
  simp [handle_dhcp_discover, hd, hm, hpool, replyFrame]

theorem handle_dhcp_request_absent (s : RogueDHCPServer) (p : InPacket)
    (habs : dictLookup s.allocated_ips p.src_mac = none) :
    handle_dhcp_request s p = (s, none) := by
  by_cases hc : (p.hasDHCP : Prop) ∧ p.msgType = 3 <;>
    simp [handle_dhcp_request, habs, hc]

theorem handle_dhcp_request_found (s : RogueDHCPServer) (p : InPacket)
    (hd : p.hasDHCP = true) (hm : p.msgType = 3) (ip : String)
    (hfound : dictLookup s.allocated_ips p.src_mac = some ip) :
    handle_dhcp_request s p =
      (s, some (replyFrame s ("ack") p.src_mac p.xid ip)) := by
  simp [handle_dhcp_request, hd, hm, hfound, replyFrame]

theorem handle_dhcp_request_fst (s : RogueDHCPServer) (p : InPacket) :
    (handle_dhcp_request s p).1 = s := by
  unfold handle_dhcp_request
  by_cases hc : (p.hasDHCP : Prop) ∧ p.msgType = 3 <;>
    cases hfind : dictLookup s.allocated_ips p.src_mac <;> simp [hc, hfind]

theorem process_packet_other (s : RogueDHCPServer) (p : InPacket)
    (h : p.hasDHCP = false ∨ (p.msgType ≠ 1 ∧ p.msgType ≠ 3)) :
    process_packet s p = (s, none) := by
  rcases h with h | ⟨h1, h3⟩
  · simp [process_packet, h]
  · by_cases hd : p.hasDHCP <;> simp [process_packet, hd, h1, h3]

/-! ### Claim C1 -/

/-- Claim C1: over any sequence of Discover frames, the number of transmitted
Offers is exactly the smaller of the number of Discovers and the current pool
size — each of the first `H` Discovers consumes one pool address and produces
an Offer, and once the pool is empty further Discovers are silent no-ops. -/
theorem C1_pool_exhaustion (s : RogueDHCPServer) (ps : List InPacket)
    (h : ∀ p ∈ ps, p.hasDHCP = true ∧ p.msgType = 1) :
    (runPackets s ps).2.length = min ps.length s.available_ips.length ∧
    (runPackets s ps).1.available_ips.length =
      s.available_ips.length - ps.length := by
  induction ps generalizing s with
  | nil => simp [runPackets]
  | cons p rest ih =>
    obtain ⟨hd, hm⟩ := h p (List.mem_cons_self p rest)
    have hrest : ∀ q ∈ rest, q.hasDHCP = true ∧ q.msgType = 1 :=
      fun q hq => h q (List.mem_cons_of_mem p hq)
    cases hpool : s.available_ips with
    | nil =>
      have hstep : process_packet s p = (s, none) := by
        rw [process_packet_discover s p hd hm, handle_dhcp_discover_nil s p hpool]
      have ihs := ih s hrest
      simp only [runPackets, hstep, Option.toList_none, List.nil_append,
        List.length_cons, hpool, List.length_nil] at ihs ⊢
      omega
    | cons ip pool' =>
      have hstep : process_packet s p =
          ({ s with available_ips := pool',
                    allocated_ips := dictInsert s.allocated_ips p.src_mac ip },
           some (replyFrame s ("offer") p.src_mac p.xid ip)) := by
        rw [process_packet_discover s p hd hm,
          handle_dhcp_discover_cons s p hd hm ip pool' hpool]
      have ihs := ih { s with available_ips := pool',
                              allocated_ips :=
                                dictInsert s.allocated_ips p.src_mac ip } hrest
      simp only [runPackets, hstep, Option.toList_some, List.singleton_append,
        List.length_cons, hpool] at ihs ⊢
      omega

/-! ### Concrete example configuration for witnesses -/

/-- The block 192.168.50.0/30: two usable hosts, .1 and .2. -/
def exNet : IPNetwork :=
  { base := 3232248320, prefixLen := 30 }

/-- A concrete responder: matches the spec's example DNS list, whose first
entry does not parse as IPv4. -/
def exServer : RogueDHCPServer :=
  RogueDHCPServer.init ("eth0") exNet ("255.255.255.252") ("192.168.50.1")
    [("not-an-ip"), ("8.8.8.8"), ("1.1.1.1")] 300

/-- A concrete Discover frame from the given MAC. -/
def exDiscover (mac : String) (xid : Nat) : InPacket :=
  { src_mac := mac, xid := xid, hasDHCP := true, msgType := 1 }

/-- A concrete Request frame from the given MAC. -/
def exRequest (mac : String) (xid : Nat) : InPacket :=
  { src_mac := mac, xid := xid, hasDHCP := true, msgType := 3 }

/-- Witness for C1: three Discovers against the two-address pool transmit
exactly two Offers and leave the pool empty. -/
theorem C1_witness :
    (runPackets exServer [exDiscover ("aa:bb:cc:dd:ee:01") 1,
      exDiscover ("aa:bb:cc:dd:ee:02") 2,
      exDiscover ("aa:bb:cc:dd:ee:03") 3]).2.length = 2 ∧
    (runPackets exServer [exDiscover ("aa:bb:cc:dd:ee:01") 1,
      exDiscover ("aa:bb:cc:dd:ee:02") 2,
      exDiscover ("aa:bb:cc:dd:ee:03") 3]).1.available_ips.length = 0 := by
  have h := C1_pool_exhaustion exServer
    [exDiscover ("aa:bb:cc:dd:ee:01") 1, exDiscover ("aa:bb:cc:dd:ee:02") 2,
      exDiscover ("aa:bb:cc:dd:ee:03") 3] (by decide)
  refine ⟨?_, ?_⟩
  · rw [h.1]; decide
  · rw [h.2]; decide

/-! ### Offers among transmitted frames -/

/-- A transmitted frame is an Offer when its first DHCP option is
message-type "offer". -/
def isOffer (f : OutFrame) : Bool :=
  match f.dhcp_options with
  | DhcpOption.messageType v :: _ => v == "offer"
  | _ => false

/-- The addresses carried by the Offer frames of a transmission list,
in transmission order. -/
def offeredIPs (fs : List OutFrame) : List String :=
  (fs.filter (fun f => isOffer f)).map (fun f => f.bootp_yiaddr)

theorem isOffer_replyFrame_offer (s : RogueDHCPServer) (mac : String)
    (xid : Nat) (ip : String) :
    isOffer (replyFrame s ("offer") mac xid ip) = true := by
  simp [isOffer, replyFrame]

theorem isOffer_replyFrame_ack (s : RogueDHCPServer) (mac : String)
    (xid : Nat) (ip : String) :
    isOffer (replyFrame s ("ack") mac xid ip) = false := by
  simp [isOffer, replyFrame]

theorem offeredIPs_nil : offeredIPs [] = [] := rfl

theorem replyFrame_yiaddr (s : RogueDHCPServer) (mt mac : String) (xid : Nat)
    (ip : String) : (replyFrame s mt mac xid ip).bootp_yiaddr = ip := rfl

theorem offeredIPs_cons_offer (s : RogueDHCPServer) (mac : String) (xid : Nat)
    (ip : String) (fs : List OutFrame) :
    offeredIPs (replyFrame s ("offer") mac xid ip :: fs) =
      ip :: offeredIPs fs := by
  simp [offeredIPs, List.filter_cons, isOffer_replyFrame_offer, replyFrame_yiaddr]

theorem offeredIPs_cons_ack (s : RogueDHCPServer) (mac : String) (xid : Nat)
    (ip : String) (fs : List OutFrame) :
    offeredIPs (replyFrame s ("ack") mac xid ip :: fs) = offeredIPs fs := by
  simp [offeredIPs, List.filter_cons, isOffer_replyFrame_ack]

/-! ### Dict lemmas -/

theorem dictLookup_dictInsert_self (d : List (String × String)) (k v : String) :
    dictLookup (dictInsert d k v) k = some v := by
  induction d with
  | nil => simp [dictInsert, dictLookup]
  | cons e t ih =>
    obtain ⟨k', v'⟩ := e
    by_cases h : k' = k <;> simp [dictInsert, dictLookup, h, ih]

theorem dictLookup_dictInsert_ne (d : List (String × String)) (k v m : String)
    (h : k ≠ m) : dictLookup (dictInsert d k v) m = dictLookup d m := by
  induction d with
  | nil => simp [dictInsert, dictLookup, h]
  | cons e t ih =>
    obtain ⟨k', v'⟩ := e
    by_cases hk : k' = k
    · subst hk
      simp only [dictInsert, if_pos rfl, dictLookup]
      rw [if_neg (fun hkm => h hkm), if_neg (fun hkm => h hkm)]
    · simp only [dictInsert, if_neg hk, dictLookup]
      by_cases hm : k' = m
      · rw [if_pos hm, if_pos hm]
      · rw [if_neg hm, if_neg hm, ih]

theorem mem_values_dictInsert (d : List (String × String)) (k v x : String)
    (hx : x ∈ (dictInsert d k v).map Prod.snd) :
    x ∈ d.map Prod.snd ∨ x = v := by
  induction d with
  | nil =>
    simp only [dictInsert, List.map_cons, List.map_nil, List.mem_singleton] at hx
    exact Or.inr hx
  | cons e t ih =>
    obtain ⟨k', v'⟩ := e
    by_cases h : k' = k
    · simp only [dictInsert, if_pos h, List.map_cons, List.mem_cons] at hx
      rcases hx with hx | hx
      · exact Or.inr hx
      · exact Or.inl (by simp only [List.map_cons, List.mem_cons]; exact Or.inr hx)
    · simp only [dictInsert, if_neg h, List.map_cons, List.mem_cons] at hx
      rcases hx with hx | hx
      · exact Or.inl (by simp only [List.map_cons, List.mem_cons]; exact Or.inl hx)
      · rcases ih hx with h2 | h2
        · exact Or.inl
            (by simp only [List.map_cons, List.mem_cons]; exact Or.inr h2)
        · exact Or.inr h2

/-! ### Full case analysis of one dispatch step -/

theorem process_packet_cases (s : RogueDHCPServer) (p : InPacket) :
    (process_packet s p = (s, none)) ∨
    (∃ ip rest, p.hasDHCP = true ∧ p.msgType = 1 ∧
      s.available_ips = ip :: rest ∧
      process_packet s p =
        ({ s with available_ips := rest,
                  allocated_ips := dictInsert s.allocated_ips p.src_mac ip },
         some (replyFrame s ("offer") p.src_mac p.xid ip))) ∨
    (∃ ip, p.hasDHCP = true ∧ p.msgType = 3 ∧
      dictLookup s.allocated_ips p.src_mac = some ip ∧
      process_packet s p = (s, some (replyFrame s ("ack") p.src_mac p.xid ip))) := by
  by_cases hd : p.hasDHCP = true
  · by_cases h1 : p.msgType = 1
    · cases hpool : s.available_ips with
      | nil =>
        left
        rw [process_packet_discover s p hd h1, handle_dhcp_discover_nil s p hpool]
      | cons ip rest =>
        right; left
        exact ⟨ip, rest, hd, h1, rfl, by
          rw [process_packet_discover s p hd h1,
            handle_dhcp_discover_cons s p hd h1 ip rest hpool]⟩
    · by_cases h3 : p.msgType = 3
      · cases hfind : dictLookup s.allocated_ips p.src_mac with
        | none =>
          left
          rw [process_packet_request s p hd h3,
            handle_dhcp_request_absent s p hfind]
        | some ip =>
          right; right
          exact ⟨ip, hd, h3, rfl, by
            rw [process_packet_request s p hd h3,
              handle_dhcp_request_found s p hd h3 ip hfind]⟩
      · left; exact process_packet_other s p (Or.inr ⟨h1, h3⟩)
  · left
    simp only [Bool.not_eq_true] at hd
    exact process_packet_other s p (Or.inl hd)

/-! ### The pool/offer accounting invariant -/

theorem runPackets_pool_split (ps : List InPacket) (s : RogueDHCPServer) :
    s.available_ips =
      offeredIPs (runPackets s ps).2 ++ (runPackets s ps).1.available_ips ∧
    ∀ x ∈ (runPackets s ps).1.allocated_ips.map Prod.snd,
      x ∈ s.allocated_ips.map Prod.snd ∨ x ∈ offeredIPs (runPackets s ps).2 := by
  induction ps generalizing s with
  | nil => simp [runPackets, offeredIPs_nil]
  | cons p rest ih =>
    rcases process_packet_cases s p with hstep |
      ⟨ip, pool', hd, hm, hpool, hstep⟩ | ⟨ip, hd, hm, hfind, hstep⟩
    · obtain ⟨ihsplit, ihvals⟩ := ih s
      simp only [runPackets, hstep, Option.toList_none, List.nil_append]
      exact ⟨ihsplit, ihvals⟩
    · obtain ⟨ihsplit, ihvals⟩ :=
        ih { s with available_ips := pool',
                    allocated_ips := dictInsert s.allocated_ips p.src_mac ip }
      simp only [runPackets, hstep, Option.toList_some, List.singleton_append,
        offeredIPs_cons_offer]
      constructor
      · rw [hpool]
        simpa using ihsplit
      · intro x hx
        rcases ihvals x hx with h | h
        · rcases mem_values_dictInsert s.allocated_ips p.src_mac ip x h with h2 | h2
          · exact Or.inl h2
          · exact Or.inr (h2 ▸ List.mem_cons_self ip _)
        · exact Or.inr (List.mem_cons_of_mem ip h)
    · obtain ⟨ihsplit, ihvals⟩ := ih s
      simp only [runPackets, hstep, Option.toList_some, List.singleton_append,
        offeredIPs_cons_ack]
      exact ⟨ihsplit, ihvals⟩

/-! ### Claim C2 -/

/-- Claim C2: from a fresh allocation table, after any packet sequence the
initial pool splits exactly into the offered addresses followed by the
remaining pool (each offered address was removed exactly once and comes from
the configured pool), every value recorded in the allocation table is one of
the offered addresses and hence an address of the initial pool, the
allocation table's value set is no larger than the initial pool, and when
the initial pool has no duplicates no address is offered twice — in
particular never to two different hardware addresses. -/
theorem C2_allocation_invariant (s0 : RogueDHCPServer) (ps : List InPacket)
    (hempty : s0.allocated_ips = []) :
    s0.available_ips =
      offeredIPs (runPackets s0 ps).2 ++ (runPackets s0 ps).1.available_ips ∧
    (∀ x ∈ (runPackets s0 ps).1.allocated_ips.map Prod.snd,
      x ∈ offeredIPs (runPackets s0 ps).2 ∧ x ∈ s0.available_ips) ∧
    ((runPackets s0 ps).1.allocated_ips.map Prod.snd).toFinset.card ≤
      s0.available_ips.length ∧
    (s0.available_ips.Nodup → (offeredIPs (runPackets s0 ps).2).Nodup) := by
  obtain ⟨hsplit, hvals⟩ := runPackets_pool_split ps s0
  have hoff : ∀ x ∈ (runPackets s0 ps).1.allocated_ips.map Prod.snd,
      x ∈ offeredIPs (runPackets s0 ps).2 := by
    intro x hx
    rcases hvals x hx with h | h
    · rw [hempty] at h
      simp at h
    · exact h
  refine ⟨hsplit, ?_, ?_, ?_⟩
  · intro x hx
    refine ⟨hoff x hx, ?_⟩
    rw [hsplit]
    exact List.mem_append_left _ (hoff x hx)
  · have hsub : ((runPackets s0 ps).1.allocated_ips.map Prod.snd).toFinset ⊆
        (offeredIPs (runPackets s0 ps).2).toFinset := by
      intro x hx
      rw [List.mem_toFinset] at hx ⊢
      exact hoff x hx
    have h1 := Finset.card_le_card hsub
    have h2 := List.toFinset_card_le (offeredIPs (runPackets s0 ps).2)
    have h3 : (offeredIPs (runPackets s0 ps).2).length ≤
        s0.available_ips.length := by
      rw [hsplit, List.length_append]
      omega
    omega
  · intro hnd
    rw [hsplit] at hnd
    exact (List.nodup_append.mp hnd).1

/-- A concrete trace: two Discovers from different MACs, an in-table Request,
and a Request from a MAC that was never offered anything. -/
def exTrace : List InPacket :=
  [exDiscover ("aa:bb:cc:dd:ee:01") 1, exRequest ("aa:bb:cc:dd:ee:01") 1,
   exDiscover ("aa:bb:cc:dd:ee:02") 2, exRequest ("aa:bb:cc:dd:ee:09") 9]

/-- Witness for C2: the invariant instantiated on the concrete trace. -/
theorem C2_witness :
    exServer.allocated_ips = [] ∧
    (exServer.available_ips =
      offeredIPs (runPackets exServer exTrace).2 ++
        (runPackets exServer exTrace).1.available_ips ∧
    (∀ x ∈ (runPackets exServer exTrace).1.allocated_ips.map Prod.snd,
      x ∈ offeredIPs (runPackets exServer exTrace).2 ∧
      x ∈ exServer.available_ips) ∧
    ((runPackets exServer exTrace).1.allocated_ips.map Prod.snd).toFinset.card ≤
      exServer.available_ips.length ∧
    (exServer.available_ips.Nodup →
      (offeredIPs (runPackets exServer exTrace).2).Nodup)) :=
  ⟨by decide, C2_allocation_invariant exServer exTrace (by decide)⟩

/-! ### Claim C3 -/

/-- The values of the name-server options of a reply's option list. -/
def nameServerValues (opts : List DhcpOption) : List String :=
  opts.filterMap
    (fun o =>
      match o with
      | DhcpOption.name_server v => some v
      | _ => none)

/-- Taking the head of a filtered list picks out the first element satisfying
the predicate: the code's `valid_dns[0] if valid_dns else gateway` is the
spec's "first entry of the list that is valid, else the gateway". -/
theorem filter_headD_eq_find (p : α → Bool) (l : List α) (d : α) :
    (l.filter p).headD d = (l.find? p).getD d := by
  induction l with
  | nil => rfl
  | cons a t ih =>
    by_cases h : p a <;> simp [List.filter_cons, List.find?_cons, h, ih]

/-- Claim C3: every transmitted reply carries exactly one name-server option,
and its value is the first entry of the configured DNS list that
`is_valid_ip` accepts, falling back to the gateway when no entry is valid;
later valid entries are never used. -/
theorem C3_name_server_first_valid (s : RogueDHCPServer) (p : InPacket)
    (f : OutFrame) (hf : (process_packet s p).2 = some f) :
    nameServerValues f.dhcp_options =
      [(s.dns_servers.find? (fun ip => is_valid_ip ip)).getD s.gateway] := by
  rcases process_packet_cases s p with hstep |
    ⟨ip, rest, hd, hm, hpool, hstep⟩ | ⟨ip, hd, hm, hfind, hstep⟩
  · rw [hstep] at hf
    cases hf
  · rw [hstep] at hf
    obtain rfl := Option.some.inj hf.symm
    simp [replyFrame, nameServerValues, filter_headD_eq_find]
  · rw [hstep] at hf
    obtain rfl := Option.some.inj hf.symm
    simp [replyFrame, nameServerValues, filter_headD_eq_find]

/-- Witness for C3: with DNS list `["not-an-ip", "8.8.8.8", "1.1.1.1"]` the
Offer produced by a concrete Discover carries name-server `8.8.8.8`. -/
theorem C3_witness :
    (process_packet exServer (exDiscover ("aa:bb:cc:dd:ee:01") 7)).2 =
      some (replyFrame exServer ("offer") ("aa:bb:cc:dd:ee:01") 7
        ("192.168.50.1")) ∧
    nameServerValues (replyFrame exServer ("offer") ("aa:bb:cc:dd:ee:01") 7
      ("192.168.50.1")).dhcp_options = [("8.8.8.8")] := by
  have hf : (process_packet exServer (exDiscover ("aa:bb:cc:dd:ee:01") 7)).2 =
      some (replyFrame exServer ("offer") ("aa:bb:cc:dd:ee:01") 7
        ("192.168.50.1")) := by decide
  refine ⟨hf, ?_⟩
  rw [C3_name_server_first_valid exServer (exDiscover ("aa:bb:cc:dd:ee:01") 7)
    _ hf]
  decide

/-! ### Claim C6 -/

/-- Claim C6: a Request whose hardware address is absent from the allocation
table is a complete no-op — no frame of any kind is transmitted and the
responder state is returned unchanged. -/
theorem C6_unknown_request_ignored (s : RogueDHCPServer) (p : InPacket)
    (hd : p.hasDHCP = true) (hm : p.msgType = 3)
    (habs : dictLookup s.allocated_ips p.src_mac = none) :
    process_packet s p = (s, none) := by
  rw [process_packet_request s p hd hm, handle_dhcp_request_absent s p habs]

/-- Witness for C6: a Request from a never-offered MAC against the concrete
responder produces no reply and leaves the state intact. -/
theorem C6_witness :
    (exRequest ("aa:bb:cc:dd:ee:09") 5).hasDHCP = true ∧
    (exRequest ("aa:bb:cc:dd:ee:09") 5).msgType = 3 ∧
    dictLookup exServer.allocated_ips
      (exRequest ("aa:bb:cc:dd:ee:09") 5).src_mac = none ∧
    process_packet exServer (exRequest ("aa:bb:cc:dd:ee:09") 5) =
      (exServer, none) :=
  ⟨by decide, by decide, by decide,
    C6_unknown_request_ignored exServer (exRequest ("aa:bb:cc:dd:ee:09") 5)
      (by decide) (by decide) (by decide)⟩

/-! ### Claim C7 -/

/-- Claim C7: every transmitted reply is link-layer broadcast from the
interface's own hardware address, network-layer broadcast from the server
address, UDP 67 → 68, a BOOTP reply echoing the inbound transaction id and
carrying the server address and the raw client hardware address, with
`yiaddr` drawn from the pool (Offer) or the allocation table (Ack), and with
its options exactly in the order message-type, server-identifier,
subnet-mask, router, name-server, lease-time, end. -/
theorem C7_reply_frame_shape (s : RogueDHCPServer) (p : InPacket)
    (f : OutFrame) (hf : (process_packet s p).2 = some f) :
    f.eth_src = HWAddr.ifaceHW s.interface ∧
    f.eth_dst = "ff:ff:ff:ff:ff:ff" ∧
    f.ip_src = s.server_ip ∧
    f.ip_dst = "255.255.255.255" ∧
    f.udp_sport = 67 ∧
    f.udp_dport = 68 ∧
    f.bootp_op = 2 ∧
    f.bootp_xid = p.xid ∧
    f.bootp_siaddr = s.server_ip ∧
    f.bootp_chaddr = mac2str p.src_mac ∧
    (f.bootp_yiaddr ∈ s.available_ips ∨
      dictLookup s.allocated_ips p.src_mac = some f.bootp_yiaddr) ∧
    ∃ mt ns, (mt = "offer" ∨ mt = "ack") ∧
      f.dhcp_options =
        [DhcpOption.messageType mt, DhcpOption.server_id s.server_ip,
         DhcpOption.subnet_mask s.subnet_mask, DhcpOption.router s.gateway,
         DhcpOption.name_server ns, DhcpOption.lease_time s.lease_time,
         DhcpOption.endOpt] := by
  rcases process_packet_cases s p with hstep |
    ⟨ip, rest, hd, hm, hpool, hstep⟩ | ⟨ip, hd, hm, hfind, hstep⟩
  · rw [hstep] at hf
    cases hf
  · rw [hstep] at hf
    obtain rfl := Option.some.inj hf.symm
    refine ⟨rfl, rfl, rfl, rfl, rfl, rfl, rfl, rfl, rfl, rfl, ?_, ?_⟩
    · left
      rw [hpool]
      exact List.mem_cons_self ip rest
    · exact ⟨"offer",
        (s.dns_servers.filter (fun ip => is_valid_ip ip)).headD s.gateway,
        Or.inl rfl, rfl⟩
  · rw [hstep] at hf
    obtain rfl := Option.some.inj hf.symm
    refine ⟨rfl, rfl, rfl, rfl, rfl, rfl, rfl, rfl, rfl, rfl, Or.inr hfind, ?_⟩
    exact ⟨"ack",
      (s.dns_servers.filter (fun ip => is_valid_ip ip)).headD s.gateway,
      Or.inr rfl, rfl⟩

/-- Witness for C7: the concrete Offer of `C3_witness`'s scenario satisfies
the full frame contract. -/
theorem C7_witness :
    (replyFrame exServer ("offer") ("aa:bb:cc:dd:ee:01") 7
        ("192.168.50.1")).eth_dst = "ff:ff:ff:ff:ff:ff" ∧
    (replyFrame exServer ("offer") ("aa:bb:cc:dd:ee:01") 7
        ("192.168.50.1")).bootp_xid =
      (exDiscover ("aa:bb:cc:dd:ee:01") 7).xid ∧
    (replyFrame exServer ("offer") ("aa:bb:cc:dd:ee:01") 7
        ("192.168.50.1")).bootp_chaddr =
      mac2str (exDiscover ("aa:bb:cc:dd:ee:01") 7).src_mac := by
  have hf : (process_packet exServer (exDiscover ("aa:bb:cc:dd:ee:01") 7)).2 =
      some (replyFrame exServer ("offer") ("aa:bb:cc:dd:ee:01") 7
        ("192.168.50.1")) := by decide
  have h := C7_reply_frame_shape exServer (exDiscover ("aa:bb:cc:dd:ee:01") 7)
    _ hf
  exact ⟨h.2.1, h.2.2.2.2.2.2.2.1, h.2.2.2.2.2.2.2.2.2.1⟩

/-! ### Claim C10 -/

/-- Claim C10: the Request handler never mutates the responder state — for
every inbound frame it returns the pool and the allocation table exactly as
they were; the method body contains no assignment to either structure. -/
theorem C10_request_never_mutates (s : RogueDHCPServer) (p : InPacket) :
    (handle_dhcp_request s p).1.available_ips = s.available_ips ∧
    (handle_dhcp_request s p).1.allocated_ips = s.allocated_ips := by
  rw [handle_dhcp_request_fst]
  exact ⟨rfl, rfl⟩

/-! ### Preservation of allocation-table entries -/

theorem process_packet_lookup_preserved (s : RogueDHCPServer) (p : InPacket)
    (m : String) (hnot : ¬(p.hasDHCP = true ∧ p.msgType = 1 ∧ p.src_mac = m)) :
    dictLookup (process_packet s p).1.allocated_ips m =
      dictLookup s.allocated_ips m := by
  rcases process_packet_cases s p with hstep |
    ⟨ip, rest, hd, hm, hpool, hstep⟩ | ⟨ip, hd, hm, hfind, hstep⟩
  · rw [hstep]
  · rw [hstep]
    have hne : p.src_mac ≠ m := fun he => hnot ⟨hd, hm, he⟩
    exact dictLookup_dictInsert_ne s.allocated_ips p.src_mac ip m hne
  · rw [hstep]

theorem runPackets_lookup_preserved (ps : List InPacket) (s : RogueDHCPServer)
    (m v : String) (hv : dictLookup s.allocated_ips m = some v)
    (hnone : ∀ q ∈ ps, ¬(q.hasDHCP = true ∧ q.msgType = 1 ∧ q.src_mac = m)) :
    dictLookup (runPackets s ps).1.allocated_ips m = some v := by
  induction ps generalizing s with
  | nil => simpa [runPackets] using hv
  | cons p rest ih =>
    have hstep := process_packet_lookup_preserved s p m
      (hnone p (List.mem_cons_self p rest))
    have hrest : ∀ q ∈ rest, ¬(q.hasDHCP = true ∧ q.msgType = 1 ∧
        q.src_mac = m) := fun q hq => hnone q (List.mem_cons_of_mem p hq)
    have : dictLookup (process_packet s p).1.allocated_ips m = some v :=
      hstep.trans hv
    simpa [runPackets] using ih (process_packet s p).1 this hrest

/-! ### Claim C5 -/

/-- Counterexample to C5 as stated: a Discover with transaction id 17 earns
an Offer (xid 17); the subsequent Request from the same hardware address but
with transaction id 99 is answered with an Ack whose transaction id is 99 —
the Request's id, not the original Discover's. -/
theorem C5_counterexample :
    ((runPackets exServer [exDiscover ("aa:bb:cc:dd:ee:01") 17,
        exRequest ("aa:bb:cc:dd:ee:01") 99]).2.map
      (fun f => f.bootp_xid)) = [17, 99] ∧
    ((runPackets exServer [exDiscover ("aa:bb:cc:dd:ee:01") 17,
        exRequest ("aa:bb:cc:dd:ee:01") 99]).2.map
      (fun f => f.dhcp_options.head?)) =
      [some (DhcpOption.messageType ("offer")),
       some (DhcpOption.messageType ("ack"))] ∧
    (99 : Nat) ≠ 17 := by
  decide

/-- Claim C5 as amended: after a hardware address receives an Offer, and as
long as no later Discover from that same hardware address intervenes, a
Request from it is answered with an Ack carrying the identical offered
address; the Ack's transaction id echoes the Request's (so it equals the
Discover's exactly when the client reuses that id). -/
theorem C5_request_matches_offer (s : RogueDHCPServer) (pd : InPacket)
    (ps : List InPacket) (pr : InPacket)
    (hd : pd.hasDHCP = true) (hm : pd.msgType = 1)
    (hrd : pr.hasDHCP = true) (hrm : pr.msgType = 3)
    (hmac : pr.src_mac = pd.src_mac)
    (f : OutFrame) (hoffer : (handle_dhcp_discover s pd).2 = some f)
    (hnone : ∀ q ∈ ps,
      ¬(q.hasDHCP = true ∧ q.msgType = 1 ∧ q.src_mac = pd.src_mac)) :
    ∃ g : OutFrame,
      (handle_dhcp_request
        (runPackets (handle_dhcp_discover s pd).1 ps).1 pr).2 = some g ∧
      g.bootp_yiaddr = f.bootp_yiaddr ∧
      g.bootp_xid = pr.xid ∧
      (pr.xid = pd.xid → g.bootp_xid = pd.xid) ∧
      g.dhcp_options.head? = some (DhcpOption.messageType ("ack")) := by
  cases hpool : s.available_ips with
  | nil =>
    rw [handle_dhcp_discover_nil s pd hpool] at hoffer
    cases hoffer
  | cons ip rest =>
    rw [handle_dhcp_discover_cons s pd hd hm ip rest hpool] at hoffer ⊢
    obtain rfl := Option.some.inj hoffer.symm
    have hstart : dictLookup
        ({ s with available_ips := rest,
                  allocated_ips :=
                    dictInsert s.allocated_ips pd.src_mac ip } :
          RogueDHCPServer).allocated_ips pd.src_mac = some ip :=
      dictLookup_dictInsert_self s.allocated_ips pd.src_mac ip
    have hkeep := runPackets_lookup_preserved ps
      { s with available_ips := rest,
               allocated_ips := dictInsert s.allocated_ips pd.src_mac ip }
      pd.src_mac ip hstart hnone
    have hfound : dictLookup
        (runPackets { s with available_ips := rest,
                             allocated_ips :=
                               dictInsert s.allocated_ips pd.src_mac ip }
          ps).1.allocated_ips pr.src_mac = some ip := by
      rw [hmac]
      exact hkeep
    refine ⟨replyFrame
      (runPackets { s with available_ips := rest,
                           allocated_ips :=
                             dictInsert s.allocated_ips pd.src_mac ip } ps).1
      ("ack") pr.src_mac pr.xid ip, ?_, rfl, rfl, fun h => h, rfl⟩
    rw [handle_dhcp_request_found _ pr hrd hrm ip hfound]

/-- Witness for C5 (amended): Discover from MAC 01 (xid 17), an unrelated
Request in between, then a Request from MAC 01 with xid 17 again; the Ack
carries the offered address and xid 17. -/
theorem C5_witness :
    (handle_dhcp_discover exServer (exDiscover ("aa:bb:cc:dd:ee:01") 17)).2 =
      some (replyFrame exServer ("offer") ("aa:bb:cc:dd:ee:01") 17
        ("192.168.50.1")) ∧
    ∃ g : OutFrame,
      (handle_dhcp_request
        (runPackets
          (handle_dhcp_discover exServer
            (exDiscover ("aa:bb:cc:dd:ee:01") 17)).1
          [exRequest ("aa:bb:cc:dd:ee:09") 5]).1
        (exRequest ("aa:bb:cc:dd:ee:01") 17)).2 = some g ∧
      g.bootp_yiaddr = (replyFrame exServer ("offer") ("aa:bb:cc:dd:ee:01") 17
        ("192.168.50.1")).bootp_yiaddr ∧
      g.bootp_xid = (exRequest ("aa:bb:cc:dd:ee:01") 17).xid ∧
      ((exRequest ("aa:bb:cc:dd:ee:01") 17).xid =
          (exDiscover ("aa:bb:cc:dd:ee:01") 17).xid →
        g.bootp_xid = (exDiscover ("aa:bb:cc:dd:ee:01") 17).xid) ∧
      g.dhcp_options.head? = some (DhcpOption.messageType ("ack")) :=
  ⟨by decide,
    C5_request_matches_offer exServer (exDiscover ("aa:bb:cc:dd:ee:01") 17)
      [exRequest ("aa:bb:cc:dd:ee:09") 5] (exRequest ("aa:bb:cc:dd:ee:01") 17)
      (by decide) (by decide) (by decide) (by decide) (by decide) _ (by decide)
      (by decide)⟩

/-! ### Claim C8 -/

/-- Counterexample to C8 as stated: after a first Discover, MAC 01's entry is
192.168.50.1; a second Discover from the same MAC overwrites the entry to the
freshly popped 192.168.50.2 — an existing entry is changed to a different
address by a later handler invocation. -/
theorem C8_counterexample :
    dictLookup (runPackets exServer
        [exDiscover ("aa:bb:cc:dd:ee:01") 1]).1.allocated_ips
      ("aa:bb:cc:dd:ee:01") = some ("192.168.50.1") ∧
    dictLookup (runPackets exServer
        [exDiscover ("aa:bb:cc:dd:ee:01") 1,
         exDiscover ("aa:bb:cc:dd:ee:01") 2]).1.allocated_ips
      ("aa:bb:cc:dd:ee:01") = some ("192.168.50.2") ∧
    ("192.168.50.1") ≠ ("192.168.50.2") := by
  decide

/-- Claim C8 as amended: the allocation table's key set grows monotonically —
a hardware address with an entry always still has one after any handler
invocation — and the entry's value is preserved by every invocation except a
later Discover from that same hardware address, which overwrites it with the
freshly popped pool address. -/
theorem C8_allocation_monotone (s : RogueDHCPServer) (p : InPacket)
    (m v : String) (hv : dictLookup s.allocated_ips m = some v) :
    (∃ v', dictLookup (process_packet s p).1.allocated_ips m = some v') ∧
    (¬(p.hasDHCP = true ∧ p.msgType = 1 ∧ p.src_mac = m) →
      dictLookup (process_packet s p).1.allocated_ips m = some v) := by
  constructor
  · rcases process_packet_cases s p with hstep |
      ⟨ip, rest, hd, hm, hpool, hstep⟩ | ⟨ip, hd, hm, hfind, hstep⟩
    · exact ⟨v, by rw [hstep]; exact hv⟩
    · by_cases hne : p.src_mac = m
      · refine ⟨ip, ?_⟩
        rw [hstep, hne]
        exact dictLookup_dictInsert_self s.allocated_ips m ip
      · refine ⟨v, ?_⟩
        rw [hstep]
        exact (dictLookup_dictInsert_ne s.allocated_ips p.src_mac ip m
          hne).trans hv
    · exact ⟨v, by rw [hstep]; exact hv⟩
  · intro hnot
    exact (process_packet_lookup_preserved s p m hnot).trans hv

/-- Witness for C8 (amended): the entry made for MAC 01 survives a Discover
from MAC 02 unchanged. -/
theorem C8_witness :
    dictLookup (runPackets exServer
        [exDiscover ("aa:bb:cc:dd:ee:01") 1]).1.allocated_ips
      ("aa:bb:cc:dd:ee:01") = some ("192.168.50.1") ∧
    ((∃ v', dictLookup (process_packet
        (runPackets exServer [exDiscover ("aa:bb:cc:dd:ee:01") 1]).1
        (exDiscover ("aa:bb:cc:dd:ee:02") 2)).1.allocated_ips
        ("aa:bb:cc:dd:ee:01") = some v') ∧
    (¬((exDiscover ("aa:bb:cc:dd:ee:02") 2).hasDHCP = true ∧
        (exDiscover ("aa:bb:cc:dd:ee:02") 2).msgType = 1 ∧
        (exDiscover ("aa:bb:cc:dd:ee:02") 2).src_mac = "aa:bb:cc:dd:ee:01") →
      dictLookup (process_packet
        (runPackets exServer [exDiscover ("aa:bb:cc:dd:ee:01") 1]).1
        (exDiscover ("aa:bb:cc:dd:ee:02") 2)).1.allocated_ips
        ("aa:bb:cc:dd:ee:01") = some ("192.168.50.1"))) :=
  ⟨by decide,
    C8_allocation_monotone
      (runPackets exServer [exDiscover ("aa:bb:cc:dd:ee:01") 1]).1
      (exDiscover ("aa:bb:cc:dd:ee:02") 2) ("aa:bb:cc:dd:ee:01")
      ("192.168.50.1") (by decide)⟩

/-! ### Claim C4 -/

/-- For any prefix length other than the special-cased 31 and 32, the pool at
construction is the printed form of every address strictly between the
network and broadcast addresses, in ascending order. -/
theorem init_available_ips (interface subnet_mask gateway : String)
    (dns : List String) (lt : Nat) (net : IPNetwork)
    (h31 : net.prefixLen ≠ 31) (h32 : net.prefixLen ≠ 32) :
    (RogueDHCPServer.init interface net subnet_mask gateway dns
        lt).available_ips =
      (List.range (net.numAddresses - 2)).map
        (fun i => ipToString (net.networkAddress + 1 + i)) := by
  simp [RogueDHCPServer.init, IPNetwork.hosts, h31, h32, List.map_map,
    Function.comp]

/-- Counterexample to C4 as stated: for the CIDR 192.168.0.0/31 the
constructed pool is both addresses of the block — the network address
192.168.0.0 and the broadcast address 192.168.0.1 are not excluded
(`IPv4Network.hosts()` special-cases /31, and likewise /32). -/
theorem C4_counterexample :
    (RogueDHCPServer.init ("eth0") { base := 3232235520, prefixLen := 31 }
        ("255.255.255.254") ("192.168.0.1") [("8.8.8.8")] 300).available_ips =
      [("192.168.0.0"), ("192.168.0.1")] ∧
    ipToString (IPNetwork.networkAddress
      { base := 3232235520, prefixLen := 31 }) = "192.168.0.0" ∧
    ipToString (IPNetwork.broadcastAddress
      { base := 3232235520, prefixLen := 31 }) = "192.168.0.1" := by
  decide

/-- Claim C4 as amended: for prefix lengths at most 30 the pool at
construction is exactly the addresses of the CIDR block with the network and
broadcast addresses excluded and nothing else excluded — every address
strictly between them, the gateway included whenever it is such a host
address; for a /31 the pool is both addresses of the block, and for a /32 its
single address. -/
theorem C4_pool_construction (interface subnet_mask gateway : String)
    (dns : List String) (lt : Nat) (net : IPNetwork) :
    (net.prefixLen ≤ 30 →
      (RogueDHCPServer.init interface net subnet_mask gateway dns
          lt).available_ips =
        (List.range (net.numAddresses - 2)).map
          (fun i => ipToString (net.networkAddress + 1 + i))) ∧
    (net.prefixLen = 31 →
      (RogueDHCPServer.init interface net subnet_mask gateway dns
          lt).available_ips =
        [ipToString net.networkAddress, ipToString net.broadcastAddress]) ∧
    (net.prefixLen = 32 →
      (RogueDHCPServer.init interface net subnet_mask gateway dns
          lt).available_ips = [ipToString net.networkAddress]) ∧
    (∀ a : Nat, net.networkAddress < a → a < net.broadcastAddress →
      ipToString a ∈ (RogueDHCPServer.init interface net subnet_mask gateway
        dns lt).available_ips) := by
  refine ⟨?_, ?_, ?_, ?_⟩
  · intro h30
    exact init_available_ips interface subnet_mask gateway dns lt net
      (by omega) (by omega)
  · intro h31
    simp [RogueDHCPServer.init, IPNetwork.hosts, h31]
  · intro h32
    simp [RogueDHCPServer.init, IPNetwork.hosts, h32]
  · intro a h1 h2
    have hpos : 0 < net.numAddresses := Nat.pos_pow_of_pos _ (by norm_num)
    by_cases h32 : net.prefixLen = 32
    · exfalso
      have hone : net.numAddresses = 1 := by
        simp [IPNetwork.numAddresses, h32]
      have : net.broadcastAddress = net.networkAddress := by
        simp [IPNetwork.broadcastAddress, hone]
      omega
    · by_cases h31 : net.prefixLen = 31
      · exfalso
        have htwo : net.numAddresses = 2 := by
          simp [IPNetwork.numAddresses, h31]
        have : net.broadcastAddress = net.networkAddress + 1 := by
          simp [IPNetwork.broadcastAddress, htwo]
        omega
      · rw [init_available_ips interface subnet_mask gateway dns lt net
          h31 h32]
        rw [List.mem_map]
        refine ⟨a - net.networkAddress - 1, List.mem_range.mpr ?_, ?_⟩
        · have hbc : net.broadcastAddress =
              net.networkAddress + net.numAddresses - 1 := rfl
          omega
        · congr 1
          omega

/-- Witness for C4 (amended): for 192.168.50.0/30 the pool is the two
addresses strictly inside the block, and the gateway 192.168.50.1
(numerically 3232248321) is one of them — it is not excluded. -/
theorem C4_witness :
    exNet.prefixLen ≤ 30 ∧
    exNet.networkAddress < 3232248321 ∧
    3232248321 < exNet.broadcastAddress ∧
    (RogueDHCPServer.init ("eth0") exNet ("255.255.255.252")
        ("192.168.50.1") [("not-an-ip"), ("8.8.8.8"), ("1.1.1.1")]
        300).available_ips =
      (List.range (exNet.numAddresses - 2)).map
        (fun i => ipToString (exNet.networkAddress + 1 + i)) ∧
    ipToString 3232248321 ∈
      (RogueDHCPServer.init ("eth0") exNet ("255.255.255.252")
        ("192.168.50.1") [("not-an-ip"), ("8.8.8.8"), ("1.1.1.1")]
        300).available_ips :=
  ⟨by decide, by decide, by decide,
    (C4_pool_construction ("eth0") ("255.255.255.252") ("192.168.50.1")
      [("not-an-ip"), ("8.8.8.8"), ("1.1.1.1")] 300 exNet).1 (by decide),
    (C4_pool_construction ("eth0") ("255.255.255.252") ("192.168.50.1")
      [("not-an-ip"), ("8.8.8.8"), ("1.1.1.1")] 300 exNet).2.2.2 3232248321
      (by decide) (by decide)⟩

/-! ### Claim C9: the process entry -/

/-- A Python exception that is a subclass of `Exception`, carrying its
message. -/
structure PyException where
  msg : String
  deriving DecidableEq, Repr

/-- What the body of the try block in `__main__` does.  `load_config` raises
on a missing file, section or key or a non-integer lease time; the
`RogueDHCPServer` constructor raises on an unparsable CIDR; `server.start()`
either blocks forever in the sniff loop or lets a transmission/capture error
propagate out.  All three calls sit inside the one try block. -/
inductive TryBlockRun where
  | configError (e : PyException)
  | poolError (e : PyException)
  | runtimeError (e : PyException)
  | runsForever
  deriving DecidableEq, Repr

/-- Observable outcome of the process. -/
inductive ProcessOutcome where
  | exitWithCode (code : Nat) (logged : Option String)
  | unhandledFault (e : PyException)
  | stillRunning
  deriving DecidableEq, Repr

/-- `__main__`: the entire body — configuration load, responder construction
and `server.start()` — runs inside one `try`, and the single
`except Exception as e` handler logs `Error: {e}` and calls `exit(1)`.
Whatever phase an exception escapes from, it reaches that handler. -/
def mainEntry (r : TryBlockRun) : ProcessOutcome :=
  match r with
  | TryBlockRun.configError e =>
    ProcessOutcome.exitWithCode 1 (some (("Error: ") ++ e.msg))
  | TryBlockRun.poolError e =>
    ProcessOutcome.exitWithCode 1 (some (("Error: ") ++ e.msg))
  | TryBlockRun.runtimeError e =>
    ProcessOutcome.exitWithCode 1 (some (("Error: ") ++ e.msg))
  | TryBlockRun.runsForever => ProcessOutcome.stillRunning

/-- Counterexample to C9 as stated: a transmission error escaping the
dispatch loop does not terminate the process as an unhandled fault — it is
caught by the `except Exception` handler, logged, and turned into exit
code 1, exactly like a configuration error. -/
theorem C9_counterexample :
    mainEntry (TryBlockRun.runtimeError { msg := "Network is down" }) =
      ProcessOutcome.exitWithCode 1 (some ("Error: Network is down")) ∧
    mainEntry (TryBlockRun.runtimeError { msg := "Network is down" }) ≠
      ProcessOutcome.unhandledFault { msg := "Network is down" } := by
  decide

/-- Claim C9 as amended: configuration errors, address-pool errors and
runtime transmission/capture errors alike are caught by the single
`except Exception` handler around the whole try block, logged, and cause
exit with code 1; no error class propagates as an unhandled fault. -/
theorem C9_all_errors_exit_one (e : PyException) :
    mainEntry (TryBlockRun.configError e) =
      ProcessOutcome.exitWithCode 1 (some (("Error: ") ++ e.msg)) ∧
    mainEntry (TryBlockRun.poolError e) =
      ProcessOutcome.exitWithCode 1 (some (("Error: ") ++ e.msg)) ∧
    mainEntry (TryBlockRun.runtimeError e) =
      ProcessOutcome.exitWithCode 1 (some (("Error: ") ++ e.msg)) ∧
    ∀ r : TryBlockRun, mainEntry r ≠ ProcessOutcome.unhandledFault e := by
  refine ⟨rfl, rfl, rfl, ?_⟩
  intro r
  cases r <;> simp [mainEntry]

/-- Witness for C9 (amended): instantiated on a concrete capture error. -/
theorem C9_witness :
    mainEntry (TryBlockRun.runtimeError { msg := "sendp failed" }) =
      ProcessOutcome.exitWithCode 1 (some (("Error: ") ++ "sendp failed")) :=
  (C9_all_errors_exit_one { msg := "sendp failed" }).2.2.1
